import Mathlib

/-!
NameSilo-DDNS: a shallow embedding of `main.go`

Go strings are embedded as Lean `String`s, the network and the JSON decoder as
a `World` the program is run against, and a run of `main` as the list of
observable events it produces together with the way the process ends.

* A Go string is a sequence of bytes and a Lean string a sequence of
  characters. The only place where the difference could show is the split at
  `.`; the byte of `.` never occurs inside the UTF-8 encoding of another
  character, so both splits cut at the same places.
* `fmt.Sprintf` and `fmt.Errorf` with `%s`, `%d`, `%v` and `%w` are string
  concatenation; `rrttl` is an `int16` in the source and an `Int` here, the
  only value passed being 7207.
* `log.Fatalln` and `log.Fatalf` end the process with status 1; the other log
  lines are not observable events of the model.
* An error value is embedded as its message.
-/

namespace NameSiloDDNS

/-! ## `strings.Split` and `strings.Join` -/

/-- Pieces of a character list between the occurrences of `sep`: the worker of
`strings.Split` for a separator of one character. -/
def splitOnChar (sep : Char) : List Char → List (List Char)
  | [] => [[]]
  | c :: cs =>
    if c = sep then [] :: splitOnChar sep cs
    else
      match splitOnChar sep cs with
      | [] => [[c]]
      | p :: ps => (c :: p) :: ps

/-- Go `strings.Split(s, sep)` for a separator of one character: the
substrings between the occurrences of `sep`, one more than there are
occurrences. -/
def stringsSplit (s : String) (sep : Char) : List String :=
  (splitOnChar sep s.data).map String.mk

/-- Go `strings.Join(elems, sep)`. -/
def stringsJoin : List String → String → String
  | [], _ => ""
  | [e], _ => e
  | e :: e2 :: es, sep => e ++ sep ++ stringsJoin (e2 :: es) sep

/-- Source `getDomainPrefix` (main.go 70-73). The slice expression
`parts[:len(parts)-2]` panics when the upper bound is negative; `none` stands
for that panic (the upper bound never exceeds the length). -/
def getDomainPrefix (domain : String) : Option String :=
  let parts := stringsSplit domain '.'
  let hi : Int := (parts.length : Int) - 2
  if 0 ≤ hi then some (stringsJoin (parts.take hi.toNat) ".") else none

/-! ## Data model (main.go 16-41) -/

/-- Source `DNSRecord`. The field `Type` is spelled `Type_`. -/
structure DNSRecord where
  RecordID : String
  Type_ : String
  Host : String
  Value : String
  TTL : String
  Distance : Int
deriving DecidableEq

/-- Source `Reply`. -/
structure Reply where
  Code : Int
  Detail : String
  RecordID : String
  ResourceRecord : List DNSRecord
deriving DecidableEq

/-- Source `APIResponse`; the anonymous `Request` struct is flattened into
`Operation` and `IP`. -/
structure APIResponse where
  Operation : String
  IP : String
  Reply : Reply
deriving DecidableEq

/-! ## The outside world and the observable events of a run -/

/-- What `http.Get` followed by `io.ReadAll` yields. -/
inductive HttpResult where
  | sendError (err : String)
  | readError (err : String)
  | body (b : String)
deriving DecidableEq

/-- Observable steps of a run: `flag.Usage()`, the entry into each of the four
network functions with its arguments, and every `http.Get` with its URL. -/
inductive Event where
  | usage
  | getIP (ipv6 : Bool)
  | fetchDNSRecords (apiKey domain : String)
  | addDNSRecord (apiKey domain rrtype rrhost rrvalue : String) (rrttl : Int)
  | updateDNSRecord (apiKey domain rrid rrhost rrvalue : String) (rrttl : Int)
  | httpGet (url : String)
deriving DecidableEq

/-- Everything outside the process: the answer to an `http.Get`, which may
depend on all that happened before it in the run, and `json.Unmarshal` into an
`APIResponse`. -/
structure World where
  httpGet : List Event → String → HttpResult
  unmarshal : String → Except String APIResponse

/-- How the process ends: `main` returns, `log.Fatal*` exits, or a run-time
panic. -/
inductive Outcome where
  | exit0
  | fatal (msg : String)
  | panic
deriving DecidableEq

/-- Exit status of the process. -/
def Outcome.exitCode : Outcome → Nat
  | .exit0 => 0
  | .fatal _ => 1
  | .panic => 2

/-- A finished run. -/
structure Run where
  trace : List Event
  outcome : Outcome
deriving DecidableEq

/-! ## The network functions -/

/-- Source `fetchDNSRecords` (main.go 43-68). -/
def fetchDNSRecords (w : World) (apiKey domain : String) (tr : List Event) :
    Except String (List DNSRecord) × List Event :=
  let url := "https://www.namesilo.com/api/dnsListRecords?version=1&type=json&key=" ++ apiKey
    ++ "&domain=" ++ domain
  let tr0 := tr ++ [Event.fetchDNSRecords apiKey domain]
  let tr1 := tr0 ++ [Event.httpGet url]
  match w.httpGet tr0 url with
  | .sendError err => (.error ("failed to send request: " ++ err), tr1)
  | .readError err => (.error ("failed to read response body: " ++ err), tr1)
  | .body body =>
    match w.unmarshal body with
    | .error err => (.error ("failed to parse JSON: " ++ err), tr1)
    | .ok apiResponse =>
      if apiResponse.Reply.Code ≠ 300 then
        (.error ("API response error: " ++ apiResponse.Reply.Detail), tr1)
      else (.ok apiResponse.Reply.ResourceRecord, tr1)

/-- Source `getIP` (main.go 75-92): the returned pair is the string and the
error, `none` for a nil error. -/
def getIP (w : World) (ipv6 : Bool) (tr : List Event) :
    (String × Option String) × List Event :=
  let url := if ipv6 then "https://6.ipw.cn" else "https://4.ipw.cn"
  let tr0 := tr ++ [Event.getIP ipv6]
  let tr1 := tr0 ++ [Event.httpGet url]
  match w.httpGet tr0 url with
  | .sendError err => (("", some err), tr1)
  | .readError err => (("", some err), tr1)
  | .body body => ((body, none), tr1)

/-- Source `addDNSRecord` (main.go 94-119). -/
def addDNSRecord (w : World) (apiKey domain rrtype rrhost rrvalue : String) (rrttl : Int)
    (tr : List Event) : Except String APIResponse × List Event :=
  let url := "https://www.namesilo.com/api/dnsAddRecord?version=1&type=json&key=" ++ apiKey
    ++ "&domain=" ++ domain ++ "&rrtype=" ++ rrtype ++ "&rrhost=" ++ rrhost
    ++ "&rrvalue=" ++ rrvalue ++ "&rrttl=" ++ toString rrttl
  let tr0 := tr ++ [Event.addDNSRecord apiKey domain rrtype rrhost rrvalue rrttl]
  let tr1 := tr0 ++ [Event.httpGet url]
  match w.httpGet tr0 url with
  | .sendError err => (.error ("failed to send request: " ++ err), tr1)
  | .readError err => (.error ("failed to read response body: " ++ err), tr1)
  | .body body =>
    match w.unmarshal body with
    | .error err => (.error ("failed to parse JSON: " ++ err), tr1)
    | .ok addRecordResponse =>
      if addRecordResponse.Reply.Code ≠ 300 then
        (.error ("API response error: " ++ addRecordResponse.Reply.Detail), tr1)
      else (.ok addRecordResponse, tr1)

/-- Source `updateDNSRecord` (main.go 121-146). -/
def updateDNSRecord (w : World) (apiKey domain rrid rrhost rrvalue : String) (rrttl : Int)
    (tr : List Event) : Except String APIResponse × List Event :=
  let url := "https://www.namesilo.com/api/dnsUpdateRecord?version=1&type=json&key=" ++ apiKey
    ++ "&domain=" ++ domain ++ "&rrid=" ++ rrid ++ "&rrhost=" ++ rrhost
    ++ "&rrvalue=" ++ rrvalue ++ "&rrttl=" ++ toString rrttl
  let tr0 := tr ++ [Event.updateDNSRecord apiKey domain rrid rrhost rrvalue rrttl]
  let tr1 := tr0 ++ [Event.httpGet url]
  match w.httpGet tr0 url with
  | .sendError err => (.error ("failed to send request: " ++ err), tr1)
  | .readError err => (.error ("failed to read response body: " ++ err), tr1)
  | .body body =>
    match w.unmarshal body with
    | .error err => (.error ("failed to parse JSON: " ++ err), tr1)
    | .ok updateRecordResponse =>
      if updateRecordResponse.Reply.Code ≠ 300 then
        (.error ("API response error: " ++ updateRecordResponse.Reply.Detail), tr1)
      else (.ok updateRecordResponse, tr1)

/-! ## `main` (main.go 163-238) -/

/-- The parsed command line, under the names of the source variables. -/
structure Flags where
  h : Bool
  flagDomain : String
  flagType : String
  flagName : String
  flagRecord : String
  flagKey : String
  flasDebug : Bool
deriving DecidableEq

/-- Lines 187-193 of `main`: the record value is `--record`, or else what
`getIP` returns, whose error is discarded; an empty value is fatal. -/
def resolveRecordValue (w : World) (f : Flags) (tr : List Event) :
    Except Outcome String × List Event :=
  if f.flagRecord = "" then
    match getIP w (decide (f.flagType = "AAAA")) tr with
    | ((recordValue, _), tr1) =>
      if recordValue = "" then (.error (.fatal "Unable to obtain IP value"), tr1)
      else (.ok recordValue, tr1)
  else (.ok f.flagRecord, tr)

/-- Lines 201-210 of `main`: the loop over the listed records, on the pair
`(already_exists, record_id)`. `getDomainPrefix` is evaluated for every record
(it is the left operand of `&&`); `none` is its panic. -/
def scanRecords (flagName flagType : String) :
    List DNSRecord → Bool × String → Option (Bool × String)
  | [], st => some st
  | record :: rest, (already_exists, record_id) =>
    match getDomainPrefix record.Host with
    | none => none
    | some p =>
      if p = flagName ∧ record.Type_ = flagType then
        scanRecords flagName flagType rest (true, record.RecordID)
      else scanRecords flagName flagType rest (already_exists, record_id)

/-- Lines 212-237 of `main`: the two consecutive `if` statements on
`already_exists`. -/
def writeRecord (w : World) (f : Flags) (recordValue : String) (already_exists : Bool)
    (record_id : String) (tr : List Event) : Run :=
  let afterUpdate : Option Outcome × List Event :=
    if already_exists then
      match updateDNSRecord w f.flagKey f.flagDomain record_id f.flagName recordValue 7207 tr with
      | (.error err, tr1) => (some (.fatal ("Error update DNS records: " ++ err)), tr1)
      | (.ok _, tr1) => (none, tr1)
    else (none, tr)
  match afterUpdate with
  | (some o, tr1) => ⟨tr1, o⟩
  | (none, tr1) =>
    if !already_exists then
      match addDNSRecord w f.flagKey f.flagDomain f.flagType f.flagName recordValue 7207 tr1 with
      | (.error err, tr2) => ⟨tr2, .fatal ("Error update DNS records: " ++ err)⟩
      | (.ok _, tr2) => ⟨tr2, .exit0⟩
    else ⟨tr1, .exit0⟩

/-- Source `main` (main.go 163-238), run against a world on parsed flags. -/
def main (w : World) (f : Flags) : Run :=
  if f.h then ⟨[Event.usage], .exit0⟩
  else if f.flagDomain = "" ∨ f.flagName = "" ∨ f.flagKey = "" then
    ⟨[Event.usage],
      .fatal "Please verify if the parameters you have have entered are correct."⟩
  else
    match resolveRecordValue w f [] with
    | (.error o, tr1) => ⟨tr1, o⟩
    | (.ok recordValue, tr1) =>
      match fetchDNSRecords w f.flagKey f.flagDomain tr1 with
      | (.error err, tr2) => ⟨tr2, .fatal ("Error fetching DNS records: " ++ err)⟩
      | (.ok records, tr2) =>
        match scanRecords f.flagName f.flagType records (false, "") with
        | none => ⟨tr2, .panic⟩
        | some (already_exists, record_id) =>
          writeRecord w f recordValue already_exists record_id tr2

/-! ## A test double for the world -/

/-- Records of the test world: three of them match (`home`, `A`). -/
def demoRecords : List DNSRecord :=
  [⟨"r0", "A", "example.com", "203.0.113.1", "3600", 0⟩,
   ⟨"r1", "A", "home.example.com", "203.0.113.2", "7207", 0⟩,
   ⟨"r2", "AAAA", "home.example.com", "2001:db8::1", "7207", 0⟩,
   ⟨"r3", "A", "home.example.com", "203.0.113.3", "7207", 0⟩,
   ⟨"r4", "A", "www.example.com", "203.0.113.4", "7207", 0⟩]

/-- Records of the test world with a Host that has no dot. -/
def localRecords : List DNSRecord :=
  [⟨"r1", "A", "home.example.com", "203.0.113.2", "7207", 0⟩,
   ⟨"r5", "A", "localhost", "127.0.0.1", "7207", 0⟩]

/-- Decoder of the test world: a few bodies stand for a few replies. -/
def demoUnmarshal (b : String) : Except String APIResponse :=
  if b = "LIST" then .ok ⟨"dnsListRecords", "198.51.100.1", ⟨300, "success", "", demoRecords⟩⟩
  else if b = "OK" then .ok ⟨"write", "198.51.100.1", ⟨300, "success", "r9", []⟩⟩
  else if b = "DENIED" then .ok ⟨"any", "198.51.100.1", ⟨110, "Invalid API key", "", []⟩⟩
  else if b = "LOCAL" then
    .ok ⟨"dnsListRecords", "198.51.100.1", ⟨300, "success", "", localRecords⟩⟩
  else .error "invalid character"

/-- Answers of the test world by the event that precedes the request. -/
def demoHttp (listBody writeBody : String) (tr : List Event) (_url : String) : HttpResult :=
  match tr.getLast? with
  | some (Event.getIP false) => .body "203.0.113.5"
  | some (Event.getIP true) => .body "2001:db8::5"
  | some (Event.fetchDNSRecords _ _) => .body listBody
  | some (Event.addDNSRecord _ _ _ _ _ _) => .body writeBody
  | some (Event.updateDNSRecord _ _ _ _ _ _) => .body writeBody
  | _ => .sendError "unexpected request"

/-- Test world: list and write answer with the given bodies. -/
def demoWorld (listBody writeBody : String) : World :=
  ⟨demoHttp listBody writeBody, demoUnmarshal⟩

/-- Test world with no route to any host. -/
def offlineWorld : World :=
  ⟨fun _ _ => .sendError "dial tcp: network is unreachable", demoUnmarshal⟩

/-- Flags of the end-to-end scenarios. -/
def demoFlags : Flags := ⟨false, "example.com", "A", "home", "", "K", false⟩

/-- Flags for a name that no listed record has. -/
def officeFlags : Flags := ⟨false, "example.com", "A", "office", "", "K", false⟩

/-- Flags with an explicit `--record` and type `AAAA`. -/
def recordFlags : Flags := ⟨false, "example.com", "AAAA", "home", "2001:db8::7", "K", false⟩

/-- Flags without `--key`. -/
def keylessFlags : Flags := ⟨false, "example.com", "A", "home", "", "", false⟩

/-- Character-level counterpart of `stringsJoin`. -/
def joinChars (sep : List Char) : List (List Char) → List Char
  | [] => []
  | [p] => p
  | p :: q :: ps => p ++ sep ++ joinChars sep (q :: ps)

/-! ## Vocabulary of the statements -/

/-- The condition of the `if` at main.go 205 for one record. -/
def recordMatches (flagName flagType : String) (r : DNSRecord) : Bool :=
  decide (getDomainPrefix r.Host = some flagName ∧ r.Type_ = flagType)

/-- The last record, in list order, that matches the name and the type. -/
def lastMatch (flagName flagType : String) (records : List DNSRecord) : Option DNSRecord :=
  (records.filter (recordMatches flagName flagType)).getLast?

/-- The event is an invocation of `addDNSRecord`. -/
def Event.isAdd : Event → Bool
  | .addDNSRecord _ _ _ _ _ _ => true
  | _ => false

/-- The event is an invocation of `updateDNSRecord`. -/
def Event.isUpdate : Event → Bool
  | .updateDNSRecord _ _ _ _ _ _ => true
  | _ => false

/-- The event is an invocation of one of the three provider operations. -/
def Event.isApiCall : Event → Bool
  | .fetchDNSRecords _ _ => true
  | .addDNSRecord _ _ _ _ _ _ => true
  | .updateDNSRecord _ _ _ _ _ _ => true
  | _ => false

/-- The event is a network call: an invocation of one of the four network
functions or an `http.Get`. -/
def Event.isNetwork : Event → Bool
  | .usage => false
  | _ => true

/-- The message `msg` contains the text `part`. -/
def containsText (msg part : String) : Prop := part.data <:+: msg.data

instance (msg part : String) : Decidable (containsText msg part) := by
  unfold containsText; infer_instance

/-- URL requested by `fetchDNSRecords`. -/
def listURL (apiKey domain : String) : String :=
  "https://www.namesilo.com/api/dnsListRecords?version=1&type=json&key=" ++ apiKey
    ++ "&domain=" ++ domain

/-- URL requested by `addDNSRecord`. -/
def addURL (apiKey domain rrtype rrhost rrvalue : String) (rrttl : Int) : String :=
  "https://www.namesilo.com/api/dnsAddRecord?version=1&type=json&key=" ++ apiKey
    ++ "&domain=" ++ domain ++ "&rrtype=" ++ rrtype ++ "&rrhost=" ++ rrhost
    ++ "&rrvalue=" ++ rrvalue ++ "&rrttl=" ++ toString rrttl

/-- URL requested by `updateDNSRecord`. -/
def updateURL (apiKey domain rrid rrhost rrvalue : String) (rrttl : Int) : String :=
  "https://www.namesilo.com/api/dnsUpdateRecord?version=1&type=json&key=" ++ apiKey
    ++ "&domain=" ++ domain ++ "&rrid=" ++ rrid ++ "&rrhost=" ++ rrhost
    ++ "&rrvalue=" ++ rrvalue ++ "&rrttl=" ++ toString rrttl

/-- URL requested by `getIP`. -/
def ipURL (ipv6 : Bool) : String := if ipv6 then "https://6.ipw.cn" else "https://4.ipw.cn"

deriving instance DecidableEq for Except

/-- The run passes the flag checks, resolves the record value `recordValue`,
and `fetchDNSRecords` succeeds with `records`; `tr` is the trace up to there. -/
def Listed (w : World) (f : Flags) (recordValue : String) (records : List DNSRecord)
    (tr : List Event) : Prop :=
  f.h = false ∧ (f.flagDomain ≠ "" ∧ f.flagName ≠ "" ∧ f.flagKey ≠ "") ∧
    (resolveRecordValue w f []).1 = .ok recordValue ∧
    fetchDNSRecords w f.flagKey f.flagDomain (resolveRecordValue w f []).2 = (.ok records, tr)

instance (w : World) (f : Flags) (v : String) (recs : List DNSRecord) (tr : List Event) :
    Decidable (Listed w f v recs tr) := by
  unfold Listed; infer_instance

/-- The rrvalue argument of an invocation of `addDNSRecord` or
`updateDNSRecord`. -/
def Event.writtenValue : Event → Option String
  | .addDNSRecord _ _ _ _ rrvalue _ => some rrvalue
  | .updateDNSRecord _ _ _ _ rrvalue _ => some rrvalue
  | _ => none

/-- The event is an invocation of `getIP`. -/
def Event.isGetIP : Event → Bool
  | .getIP _ => true
  | _ => false

/-! ## Lemmas on splitting and joining -/

theorem splitOnChar_nil (sep : Char) : splitOnChar sep [] = [[]] := rfl

theorem splitOnChar_cons_sep (sep : Char) (cs : List Char) :
    splitOnChar sep (sep :: cs) = [] :: splitOnChar sep cs := by
  simp [splitOnChar]

theorem splitOnChar_exists (sep : Char) (s : List Char) :
    ∃ p ps, splitOnChar sep s = p :: ps := by
  induction s with
  | nil => exact ⟨[], [], rfl⟩
  | cons c cs ih =>
    obtain ⟨p, ps, hp⟩ := ih
    by_cases hc : c = sep
    · exact ⟨[], splitOnChar sep cs, by simp [splitOnChar, hc]⟩
    · exact ⟨c :: p, ps, by simp [splitOnChar, hc, hp]⟩

theorem splitOnChar_cons_ne (sep c : Char) (cs p : List Char) (ps : List (List Char))
    (hc : c ≠ sep) (hp : splitOnChar sep cs = p :: ps) :
    splitOnChar sep (c :: cs) = (c :: p) :: ps := by
  simp [splitOnChar, hc, hp]

theorem splitOnChar_ne_nil (sep : Char) (s : List Char) : splitOnChar sep s ≠ [] := by
  obtain ⟨p, ps, hp⟩ := splitOnChar_exists sep s
  simp [hp]

theorem length_splitOnChar (sep : Char) (s : List Char) :
    (splitOnChar sep s).length = s.count sep + 1 := by
  induction s with
  | nil => simp [splitOnChar]
  | cons c cs ih =>
    obtain ⟨p, ps, hp⟩ := splitOnChar_exists sep cs
    by_cases hc : c = sep
    · subst hc
      simp [splitOnChar_cons_sep, ih]
    · rw [splitOnChar_cons_ne sep c cs p ps hc hp, List.count_cons_of_ne (Ne.symm hc), ← ih, hp]
      simp

theorem splitOnChar_append_sep (sep : Char) (a b : List Char) :
    splitOnChar sep (a ++ sep :: b) = splitOnChar sep a ++ splitOnChar sep b := by
  induction a with
  | nil => simp [splitOnChar]
  | cons c a ih =>
    obtain ⟨p, ps, hp⟩ := splitOnChar_exists sep a
    by_cases hc : c = sep
    · subst hc
      simp [splitOnChar_cons_sep, ih]
    · have h2 : splitOnChar sep (a ++ sep :: b) = p :: (ps ++ splitOnChar sep b) := by
        rw [ih, hp]; rfl
      rw [List.cons_append, splitOnChar_cons_ne sep c _ p _ hc h2,
        splitOnChar_cons_ne sep c a p ps hc hp]
      rfl

theorem splitOnChar_of_not_mem (sep : Char) (s : List Char) (h : sep ∉ s) :
    splitOnChar sep s = [s] := by
  induction s with
  | nil => rfl
  | cons c cs ih =>
    simp only [List.mem_cons, not_or] at h
    exact splitOnChar_cons_ne sep c cs cs [] (Ne.symm h.1) (ih h.2)

theorem not_mem_of_mem_splitOnChar (sep : Char) (s : List Char) :
    ∀ p ∈ splitOnChar sep s, sep ∉ p := by
  induction s with
  | nil => simp [splitOnChar]
  | cons c cs ih =>
    obtain ⟨q, qs, hq⟩ := splitOnChar_exists sep cs
    by_cases hc : c = sep
    · subst hc
      intro p hp
      rw [splitOnChar_cons_sep, List.mem_cons] at hp
      rcases hp with rfl | hp
      · simp
      · exact ih p hp
    · intro p hp
      rw [splitOnChar_cons_ne sep c cs q qs hc hq, List.mem_cons] at hp
      rw [hq] at ih
      rcases hp with rfl | hp
      · have := ih q (List.mem_cons_self _ _)
        simp [this, Ne.symm hc]
      · exact ih p (List.mem_cons_of_mem _ hp)

theorem joinChars_cons (sep p : List Char) (l : List (List Char)) (hl : l ≠ []) :
    joinChars sep (p :: l) = p ++ sep ++ joinChars sep l := by
  cases l with
  | nil => exact absurd rfl hl
  | cons q qs => rfl

theorem joinChars_append (sep : List Char) (l1 l2 : List (List Char)) (h1 : l1 ≠ [])
    (h2 : l2 ≠ []) :
    joinChars sep (l1 ++ l2) = joinChars sep l1 ++ sep ++ joinChars sep l2 := by
  induction l1 with
  | nil => exact absurd rfl h1
  | cons p ps ih =>
    by_cases hps : ps = []
    · subst hps
      rw [List.singleton_append, joinChars_cons sep p l2 h2]
      rfl
    · rw [List.cons_append, joinChars_cons sep p (ps ++ l2) (by simp [hps]), ih hps,
        joinChars_cons sep p ps hps]
      simp [List.append_assoc]

theorem joinChars_splitOnChar (sep : Char) (s : List Char) :
    joinChars [sep] (splitOnChar sep s) = s := by
  induction s with
  | nil => rfl
  | cons c cs ih =>
    obtain ⟨p, ps, hp⟩ := splitOnChar_exists sep cs
    by_cases hc : c = sep
    · subst hc
      rw [splitOnChar_cons_sep, joinChars_cons _ _ _ (splitOnChar_ne_nil _ _), ih]
      rfl
    · rw [splitOnChar_cons_ne sep c cs p ps hc hp]
      rw [hp] at ih
      cases ps with
      | nil => simpa [joinChars] using ih
      | cons q qs =>
        simp only [joinChars] at ih ⊢
        simp [ih]

theorem splitOnChar_joinChars (sep : Char) (l : List (List Char)) (hl : l ≠ [])
    (hfree : ∀ p ∈ l, sep ∉ p) : splitOnChar sep (joinChars [sep] l) = l := by
  induction l with
  | nil => exact absurd rfl hl
  | cons p ps ih =>
    have hp : sep ∉ p := hfree p (List.mem_cons_self _ _)
    by_cases hps : ps = []
    · subst hps
      exact splitOnChar_of_not_mem sep p hp
    · rw [joinChars_cons _ p ps hps, List.append_assoc, List.singleton_append,
        splitOnChar_append_sep, splitOnChar_of_not_mem sep p hp,
        ih hps (fun q hq => hfree q (List.mem_cons_of_mem _ hq))]
      rfl

theorem stringsJoin_data (ls : List String) (sep : String) :
    (stringsJoin ls sep).data = joinChars sep.data (ls.map String.data) := by
  induction ls with
  | nil => rfl
  | cons e es ih =>
    cases es with
    | nil => rfl
    | cons e2 es =>
      simp only [stringsJoin, String.data_append, ih, List.map_cons, joinChars]

theorem stringsJoin_map_mk (ps : List (List Char)) (sep : String) :
    stringsJoin (ps.map String.mk) sep = String.mk (joinChars sep.data ps) := by
  apply String.ext
  rw [stringsJoin_data]
  simp [Function.comp_def]

theorem stringsJoin_stringsSplit (s : String) :
    stringsJoin (stringsSplit s '.') "." = s := by
  unfold stringsSplit
  rw [stringsJoin_map_mk]
  apply String.ext
  exact joinChars_splitOnChar '.' s.data

theorem stringsSplit_stringsJoin (labels : List String) (hl : labels ≠ [])
    (hfree : ∀ l ∈ labels, '.' ∉ l.data) :
    stringsSplit (stringsJoin labels ".") '.' = labels := by
  unfold stringsSplit
  rw [stringsJoin_data]
  have h : splitOnChar '.' (joinChars ['.'] (labels.map String.data)) = labels.map String.data :=
    splitOnChar_joinChars '.' _ (by simpa using hl) (by
      intro p hp
      obtain ⟨l, hl1, rfl⟩ := List.mem_map.1 hp
      exact hfree l hl1)
  have hd : ("." : String).data = ['.'] := rfl
  rw [hd, h, List.map_map]
  conv_rhs => rw [← List.map_id labels]
  rfl

theorem length_stringsSplit (s : String) :
    (stringsSplit s '.').length = s.data.count '.' + 1 := by
  simp [stringsSplit, length_splitOnChar]

theorem stringsSplit_append_dot (n d : String) :
    stringsSplit (n ++ "." ++ d) '.' = stringsSplit n '.' ++ stringsSplit d '.' := by
  unfold stringsSplit
  have h : (n ++ "." ++ d).data = n.data ++ '.' :: d.data := by
    simp [String.data_append]
  rw [h, splitOnChar_append_sep, List.map_append]

/-- The source function in closed form: `none` without a dot, else the join
of all labels but the last two. -/
theorem getDomainPrefix_eq (domain : String) :
    getDomainPrefix domain =
      if 2 ≤ (stringsSplit domain '.').length then
        some (stringsJoin ((stringsSplit domain '.').take
          ((stringsSplit domain '.').length - 2)) ".")
      else none := by
  unfold getDomainPrefix
  simp only
  by_cases h : 2 ≤ (stringsSplit domain '.').length
  · have h0 : (0 : Int) ≤ ((stringsSplit domain '.').length : Int) - 2 := by omega
    have h1 : (((stringsSplit domain '.').length : Int) - 2).toNat
        = (stringsSplit domain '.').length - 2 := by omega
    rw [if_pos h0, if_pos h, h1]
  · have h0 : ¬ (0 : Int) ≤ ((stringsSplit domain '.').length : Int) - 2 := by omega
    rw [if_neg h0, if_neg h]

theorem getDomainPrefix_isSome_iff (domain : String) :
    (getDomainPrefix domain).isSome = true ↔ '.' ∈ domain.data := by
  rw [getDomainPrefix_eq, length_stringsSplit]
  by_cases h : '.' ∈ domain.data
  · have hc := List.count_pos_iff.2 h
    have h2 : 2 ≤ List.count '.' domain.data + 1 := by omega
    simp [h, h2]
  · have := List.count_eq_zero_of_not_mem h
    simp [h, this]

/-! ## The scan of the listed records -/

theorem scanRecords_isSome_iff (flagName flagType : String) (recs : List DNSRecord)
    (st : Bool × String) :
    (scanRecords flagName flagType recs st).isSome = true ↔ ∀ r ∈ recs, '.' ∈ r.Host.data := by
  induction recs generalizing st with
  | nil => simp [scanRecords]
  | cons r rest ih =>
    obtain ⟨ae, rid⟩ := st
    cases hp : getDomainPrefix r.Host with
    | none =>
      have hn : ¬ '.' ∈ r.Host.data := by
        rw [← getDomainPrefix_isSome_iff, hp]; simp
      simp [scanRecords, hp, hn]
    | some p =>
      have hy : '.' ∈ r.Host.data := by
        rw [← getDomainPrefix_isSome_iff, hp]; rfl
      by_cases hm : p = flagName ∧ r.Type_ = flagType
      · simp only [scanRecords, hp, if_pos hm, ih, List.mem_cons, forall_eq_or_imp, hy, true_and]
      · simp only [scanRecords, hp, if_neg hm, ih, List.mem_cons, forall_eq_or_imp, hy, true_and]

theorem scanRecords_eq (flagName flagType : String) (recs : List DNSRecord)
    (hd : ∀ r ∈ recs, '.' ∈ r.Host.data) (ae : Bool) (rid : String) :
    scanRecords flagName flagType recs (ae, rid) =
      some (match lastMatch flagName flagType recs with
        | some r => (true, r.RecordID)
        | none => (ae, rid)) := by
  induction recs generalizing ae rid with
  | nil => rfl
  | cons r rest ih =>
    have hrest : ∀ x ∈ rest, '.' ∈ x.Host.data := fun x hx => hd x (List.mem_cons_of_mem _ hx)
    have hy : (getDomainPrefix r.Host).isSome = true :=
      (getDomainPrefix_isSome_iff _).2 (hd r (List.mem_cons_self _ _))
    obtain ⟨p, hp⟩ := Option.isSome_iff_exists.1 hy
    by_cases hm : p = flagName ∧ r.Type_ = flagType
    · have hrm : recordMatches flagName flagType r = true := by
        simp [recordMatches, hp, hm.1, hm.2]
      have hl : lastMatch flagName flagType (r :: rest)
          = some ((lastMatch flagName flagType rest).getD r) := by
        simp only [lastMatch, List.filter_cons_of_pos hrm, List.getLast?_cons]
      simp only [scanRecords, hp, if_pos hm, ih hrest, hl]
      cases lastMatch flagName flagType rest <;> rfl
    · have hrm : ¬ recordMatches flagName flagType r = true := by
        simpa [recordMatches, hp] using hm
      have hl : lastMatch flagName flagType (r :: rest) = lastMatch flagName flagType rest := by
        simp only [lastMatch, List.filter_cons_of_neg hrm]
      simp only [scanRecords, hp, if_neg hm, ih hrest, hl]

/-! ## Shape of the runs -/

theorem getIP_trace (w : World) (ipv6 : Bool) (tr : List Event) :
    (getIP w ipv6 tr).2 = tr ++ [Event.getIP ipv6, Event.httpGet (ipURL ipv6)] := by
  unfold getIP ipURL
  simp only
  split <;> simp

theorem fetchDNSRecords_trace (w : World) (k d : String) (tr : List Event) :
    (fetchDNSRecords w k d tr).2
      = tr ++ [Event.fetchDNSRecords k d, Event.httpGet (listURL k d)] := by
  unfold fetchDNSRecords listURL
  simp only
  split
  · simp
  · simp
  · split
    · simp
    · split <;> simp

theorem addDNSRecord_trace (w : World) (k d t h v : String) (ttl : Int) (tr : List Event) :
    (addDNSRecord w k d t h v ttl tr).2
      = tr ++ [Event.addDNSRecord k d t h v ttl, Event.httpGet (addURL k d t h v ttl)] := by
  unfold addDNSRecord addURL
  simp only
  split
  · simp
  · simp
  · split
    · simp
    · split <;> simp

theorem updateDNSRecord_trace (w : World) (k d i h v : String) (ttl : Int) (tr : List Event) :
    (updateDNSRecord w k d i h v ttl tr).2
      = tr ++ [Event.updateDNSRecord k d i h v ttl, Event.httpGet (updateURL k d i h v ttl)] := by
  unfold updateDNSRecord updateURL
  simp only
  split
  · simp
  · simp
  · split
    · simp
    · split <;> simp

theorem resolveRecordValue_trace (w : World) (f : Flags) (tr : List Event) :
    (resolveRecordValue w f tr).2 =
      if f.flagRecord = "" then
        tr ++ [Event.getIP (decide (f.flagType = "AAAA")),
          Event.httpGet (ipURL (decide (f.flagType = "AAAA")))]
      else tr := by
  unfold resolveRecordValue
  by_cases hr : f.flagRecord = ""
  · simp only [if_pos hr]
    have ht := getIP_trace w (decide (f.flagType = "AAAA")) tr
    rcases hg : getIP w (decide (f.flagType = "AAAA")) tr with ⟨⟨rv, e⟩, tr1⟩
    rw [hg] at ht
    simp only at ht
    subst ht
    by_cases hv : rv = "" <;> simp [hv]
  · simp [hr]

theorem writeRecord_true (w : World) (f : Flags) (v rid : String) (tr : List Event) :
    writeRecord w f v true rid tr =
      ⟨tr ++ [Event.updateDNSRecord f.flagKey f.flagDomain rid f.flagName v 7207,
          Event.httpGet (updateURL f.flagKey f.flagDomain rid f.flagName v 7207)],
        match (updateDNSRecord w f.flagKey f.flagDomain rid f.flagName v 7207 tr).1 with
        | .error err => .fatal ("Error update DNS records: " ++ err)
        | .ok _ => .exit0⟩ := by
  have ht := updateDNSRecord_trace w f.flagKey f.flagDomain rid f.flagName v 7207 tr
  unfold writeRecord
  rcases hu : updateDNSRecord w f.flagKey f.flagDomain rid f.flagName v 7207 tr with ⟨res, tr1⟩
  rw [hu] at ht
  simp only at ht
  subst ht
  cases res <;> simp

theorem writeRecord_false (w : World) (f : Flags) (v rid : String) (tr : List Event) :
    writeRecord w f v false rid tr =
      ⟨tr ++ [Event.addDNSRecord f.flagKey f.flagDomain f.flagType f.flagName v 7207,
          Event.httpGet (addURL f.flagKey f.flagDomain f.flagType f.flagName v 7207)],
        match (addDNSRecord w f.flagKey f.flagDomain f.flagType f.flagName v 7207 tr).1 with
        | .error err => .fatal ("Error update DNS records: " ++ err)
        | .ok _ => .exit0⟩ := by
  have ht := addDNSRecord_trace w f.flagKey f.flagDomain f.flagType f.flagName v 7207 tr
  unfold writeRecord
  simp only [Bool.false_eq_true, if_false, Bool.not_false, if_true]
  rcases hu : addDNSRecord w f.flagKey f.flagDomain f.flagType f.flagName v 7207 tr with ⟨res, tr1⟩
  rw [hu] at ht
  simp only at ht
  subst ht
  cases res <;> simp

theorem main_of_listed (w : World) (f : Flags) (v : String) (recs : List DNSRecord)
    (tr : List Event) (hl : Listed w f v recs tr) :
    main w f =
      match scanRecords f.flagName f.flagType recs (false, "") with
      | none => ⟨tr, .panic⟩
      | some (already_exists, record_id) => writeRecord w f v already_exists record_id tr := by
  obtain ⟨hh, hreq, hres, hlist⟩ := hl
  unfold main
  have hn : ¬ (f.flagDomain = "" ∨ f.flagName = "" ∨ f.flagKey = "") := by
    rintro (h | h | h)
    · exact hreq.1 h
    · exact hreq.2.1 h
    · exact hreq.2.2 h
  rcases hr : resolveRecordValue w f [] with ⟨res, tr1⟩
  rw [hr] at hres hlist
  simp only at hres hlist
  subst hres
  simp only [hh, if_neg hn, hlist]
  simp

theorem trace_of_listed (w : World) (f : Flags) (v : String) (recs : List DNSRecord)
    (tr : List Event) (hl : Listed w f v recs tr) :
    tr = (if f.flagRecord = "" then
        [Event.getIP (decide (f.flagType = "AAAA")),
          Event.httpGet (ipURL (decide (f.flagType = "AAAA")))]
      else []) ++ [Event.fetchDNSRecords f.flagKey f.flagDomain,
        Event.httpGet (listURL f.flagKey f.flagDomain)] := by
  obtain ⟨hh, hreq, hres, hlist⟩ := hl
  have h1 := resolveRecordValue_trace w f []
  have h2 := fetchDNSRecords_trace w f.flagKey f.flagDomain (resolveRecordValue w f []).2
  rw [hlist] at h2
  simp only at h2
  rw [h2, h1]
  by_cases hr : f.flagRecord = "" <;> simp [hr]

/-- Every run of `main` is of one of five kinds. -/
theorem main_cases (w : World) (f : Flags) :
    (f.h = true ∧ main w f = ⟨[Event.usage], .exit0⟩) ∨
    (f.h = false ∧ (f.flagDomain = "" ∨ f.flagName = "" ∨ f.flagKey = "") ∧
      main w f = ⟨[Event.usage],
        .fatal "Please verify if the parameters you have have entered are correct."⟩) ∨
    (f.h = false ∧ (f.flagDomain ≠ "" ∧ f.flagName ≠ "" ∧ f.flagKey ≠ "") ∧
      f.flagRecord = "" ∧ (getIP w (decide (f.flagType = "AAAA")) []).1.1 = "" ∧
      main w f = ⟨[Event.getIP (decide (f.flagType = "AAAA")),
          Event.httpGet (ipURL (decide (f.flagType = "AAAA")))],
        .fatal "Unable to obtain IP value"⟩) ∨
    (∃ v err, f.h = false ∧ (f.flagDomain ≠ "" ∧ f.flagName ≠ "" ∧ f.flagKey ≠ "") ∧
      (resolveRecordValue w f []).1 = .ok v ∧
      (fetchDNSRecords w f.flagKey f.flagDomain (resolveRecordValue w f []).2).1 = .error err ∧
      main w f = ⟨(resolveRecordValue w f []).2 ++ [Event.fetchDNSRecords f.flagKey f.flagDomain,
          Event.httpGet (listURL f.flagKey f.flagDomain)],
        .fatal ("Error fetching DNS records: " ++ err)⟩) ∨
    (∃ v recs tr, Listed w f v recs tr) := by
  by_cases hh : f.h = true
  · left
    exact ⟨hh, by simp [main, hh]⟩
  have hh : f.h = false := by simpa using hh
  right
  by_cases hm : f.flagDomain = "" ∨ f.flagName = "" ∨ f.flagKey = ""
  · left
    exact ⟨hh, hm, by simp [main, hh, hm]⟩
  right
  have hreq : f.flagDomain ≠ "" ∧ f.flagName ≠ "" ∧ f.flagKey ≠ "" := by
    simp only [not_or] at hm
    exact hm
  have htr := resolveRecordValue_trace w f []
  rcases hr : resolveRecordValue w f [] with ⟨res, tr1⟩
  rw [hr] at htr
  simp only at htr
  cases res with
  | error o =>
    left
    have hrec : f.flagRecord = "" := by
      by_contra hne
      simp [resolveRecordValue, hne] at hr
    refine ⟨hh, hreq, hrec, ?_, ?_⟩
    · by_contra hne
      rcases hg : getIP w (decide (f.flagType = "AAAA")) [] with ⟨⟨rv, e⟩, tr0⟩
      rw [hg] at hne
      simp only at hne
      simp [resolveRecordValue, hrec, hg, hne] at hr
    · have ho : o = .fatal "Unable to obtain IP value" := by
        rcases hg : getIP w (decide (f.flagType = "AAAA")) [] with ⟨⟨rv, e⟩, tr0⟩
        by_cases hv : rv = ""
        · simp [resolveRecordValue, hrec, hg, hv] at hr
          exact hr.1.symm
        · simp [resolveRecordValue, hrec, hg, hv] at hr
      subst ho
      simp only [main, hh, if_neg hm, hr, htr, if_pos hrec]
      simp
  | ok v =>
    right
    have hft := fetchDNSRecords_trace w f.flagKey f.flagDomain tr1
    rcases hf : fetchDNSRecords w f.flagKey f.flagDomain tr1 with ⟨fres, tr2⟩
    rw [hf] at hft
    simp only at hft
    cases fres with
    | error err =>
      left
      refine ⟨v, err, hh, hreq, rfl, ?_, ?_⟩
      · simp only [hf]
      · simp only [main, hh, if_neg hm, hr, hf, hft]
        simp
    | ok recs =>
      right
      exact ⟨v, recs, tr2, hh, hreq, by simp only [hr], by simp only [hr, hf]⟩

/-! ## More on joining -/

theorem stringsJoin_append (a b : List String) (sep : String) (ha : a ≠ []) (hb : b ≠ []) :
    stringsJoin (a ++ b) sep = stringsJoin a sep ++ sep ++ stringsJoin b sep := by
  apply String.ext
  simp only [stringsJoin_data, String.data_append, List.map_append]
  exact joinChars_append _ _ _ (by simpa using ha) (by simpa using hb)

theorem stringsSplit_ne_nil (s : String) : stringsSplit s '.' ≠ [] := by
  simp [stringsSplit, splitOnChar_ne_nil]

theorem stringsSplit_dot_free (s : String) : ∀ l ∈ stringsSplit s '.', '.' ∉ l.data := by
  intro l hl
  obtain ⟨p, hp, rfl⟩ := List.mem_map.1 hl
  exact not_mem_of_mem_splitOnChar '.' s.data p hp

theorem dropLast_dropLast_eq_take {α : Type} (l : List α) :
    l.dropLast.dropLast = l.take (l.length - 2) := by
  rw [List.dropLast_eq_take, List.dropLast_eq_take, List.length_take, List.take_take]
  congr 1
  omega

/-! ## The claims on `getDomainPrefix` -/

/-- Claim C3 as stated fails: on the host `localhost`, which has a single
label, `getDomainPrefix` panics instead of returning the join of the labels
left after dropping the last two. -/
theorem getDomainPrefix_single_label_panics :
    getDomainPrefix "localhost" = none ∧
      getDomainPrefix "localhost"
        ≠ some (stringsJoin (stringsSplit "localhost" '.').dropLast.dropLast ".") := by
  decide

/-- Claim C3, amended: for every host that contains at least one `.`, and for
every way to write the host as dot-free labels joined by `.` (there is one),
`getDomainPrefix` returns all labels but the last two joined by `.`; on
`sub.example.com` it returns `sub` and on `example.com` the empty string. -/
theorem getDomainPrefix_drops_last_two_labels (host : String) (hdot : '.' ∈ host.data) :
    (∀ labels : List String, labels ≠ [] → (∀ l ∈ labels, '.' ∉ l.data) →
        stringsJoin labels "." = host →
        getDomainPrefix host = some (stringsJoin labels.dropLast.dropLast ".")) ∧
    (∃ labels : List String, labels ≠ [] ∧ (∀ l ∈ labels, '.' ∉ l.data) ∧
        stringsJoin labels "." = host) ∧
    getDomainPrefix "sub.example.com" = some "sub" ∧
    getDomainPrefix "example.com" = some "" := by
  refine ⟨?_, ⟨stringsSplit host '.', stringsSplit_ne_nil host, stringsSplit_dot_free host,
    stringsJoin_stringsSplit host⟩, by decide, by decide⟩
  intro labels hne hfree hjoin
  have hs : stringsSplit host '.' = labels := by
    rw [← hjoin]; exact stringsSplit_stringsJoin labels hne hfree
  have hlen : 2 ≤ labels.length := by
    have h1 := length_stringsSplit host
    have h2 := List.count_pos_iff.2 hdot
    rw [hs] at h1
    omega
  rw [getDomainPrefix_eq, hs, if_pos hlen, dropLast_dropLast_eq_take]

/-- Witness of `getDomainPrefix_drops_last_two_labels` on a host of four labels. -/
theorem getDomainPrefix_drops_last_two_labels_witness :
    '.' ∈ "www.home.example.com".data ∧
      getDomainPrefix "www.home.example.com"
        = some (stringsJoin ["www", "home", "example", "com"].dropLast.dropLast ".") :=
  ⟨by decide, (getDomainPrefix_drops_last_two_labels "www.home.example.com" (by decide)).1
    ["www", "home", "example", "com"] (by decide) (by decide) (by decide)⟩

/-- Claim C10: for a domain `d` with exactly one `.`, the prefix of
`n ++ "." ++ d` is `n`, so a record with that host and the requested type
matches the name `n`; for a domain with two or more `.`, it is `n`, a `.` and
the prefix of `d` (its labels but the last two), which is not `n`. -/
theorem getDomainPrefix_name_dot_domain (n d : String) :
    (d.data.count '.' = 1 →
      getDomainPrefix (n ++ "." ++ d) = some n ∧
      ∀ r : DNSRecord, r.Host = n ++ "." ++ d → recordMatches n r.Type_ r = true) ∧
    (2 ≤ d.data.count '.' →
      ∃ p, getDomainPrefix d = some p ∧
        getDomainPrefix (n ++ "." ++ d) = some (n ++ "." ++ p) ∧ n ++ "." ++ p ≠ n) := by
  have hsplit := stringsSplit_append_dot n d
  have hlen := length_stringsSplit d
  have hn := stringsSplit_ne_nil n
  constructor
  · intro h1
    have hp : getDomainPrefix (n ++ "." ++ d) = some n := by
      have hl : 2 ≤ (stringsSplit n '.' ++ stringsSplit d '.').length := by
        rw [List.length_append]; omega
      have ht : (stringsSplit n '.' ++ stringsSplit d '.').length - 2
          = (stringsSplit n '.').length := by
        rw [List.length_append]; omega
      rw [getDomainPrefix_eq, hsplit, if_pos hl, ht, List.take_left, stringsJoin_stringsSplit]
    refine ⟨hp, ?_⟩
    intro r hr
    simp [recordMatches, hr, hp]
  · intro h2
    have hd2 : 2 ≤ (stringsSplit d '.').length := by omega
    refine ⟨stringsJoin ((stringsSplit d '.').take ((stringsSplit d '.').length - 2)) ".",
      ?_, ?_, ?_⟩
    · rw [getDomainPrefix_eq, if_pos hd2]
    · have hl : 2 ≤ (stringsSplit n '.' ++ stringsSplit d '.').length := by
        rw [List.length_append]; omega
      have ht : (stringsSplit n '.' ++ stringsSplit d '.').length - 2
          = (stringsSplit n '.').length + ((stringsSplit d '.').length - 2) := by
        rw [List.length_append]; omega
      have hne : (stringsSplit d '.').take ((stringsSplit d '.').length - 2) ≠ [] := by
        intro h0
        have := congrArg List.length h0
        rw [List.length_take] at this
        simp at this
        omega
      rw [getDomainPrefix_eq, hsplit, if_pos hl, ht, List.take_append,
        stringsJoin_append _ _ _ hn hne, stringsJoin_stringsSplit]
    · intro he
      have hlen2 := congrArg String.length he
      rw [String.length_append, String.length_append] at hlen2
      have h1 : (".": String).length = 1 := rfl
      omega

/-- Witness of `getDomainPrefix_name_dot_domain` on `example.com` and on
`example.co.uk`. -/
theorem getDomainPrefix_name_dot_domain_witness :
    ("example.com".data.count '.' = 1 ∧
      getDomainPrefix ("home" ++ "." ++ "example.com") = some "home") ∧
    (2 ≤ "example.co.uk".data.count '.' ∧
      ∃ p, getDomainPrefix "example.co.uk" = some p ∧
        getDomainPrefix ("home" ++ "." ++ "example.co.uk") = some ("home" ++ "." ++ p) ∧
        "home" ++ "." ++ p ≠ "home") :=
  ⟨⟨by decide, ((getDomainPrefix_name_dot_domain "home" "example.com").1 (by decide)).1⟩,
    ⟨by decide, (getDomainPrefix_name_dot_domain "home" "example.co.uk").2 (by decide)⟩⟩

/-! ## The claims on the scan and on the choice between update and add -/

theorem listed_trace_no_write (w : World) (f : Flags) (v : String) (recs : List DNSRecord)
    (tr : List Event) (hl : Listed w f v recs tr) :
    ∀ e ∈ tr, e.isAdd = false ∧ e.isUpdate = false := by
  rw [trace_of_listed w f v recs tr hl]
  intro e he
  by_cases hr : f.flagRecord = ""
  · simp only [if_pos hr, List.cons_append, List.nil_append, List.mem_cons,
      List.mem_singleton, List.not_mem_nil, or_false] at he
    rcases he with rfl | rfl | rfl | rfl <;> exact ⟨rfl, rfl⟩
  · simp only [if_neg hr, List.nil_append, List.mem_cons, List.mem_singleton,
      List.not_mem_nil, or_false] at he
    rcases he with rfl | rfl <;> exact ⟨rfl, rfl⟩

theorem writeRecord_outcome_ne_panic (w : World) (f : Flags) (v rid : String) (ae : Bool)
    (tr : List Event) : (writeRecord w f v ae rid tr).outcome ≠ .panic := by
  cases ae
  · rw [writeRecord_false]
    simp only
    split <;> simp
  · rw [writeRecord_true]
    simp only
    split <;> simp

theorem scanRecords_none_of_dot_free (flagName flagType : String) (recs : List DNSRecord)
    (st : Bool × String) (h : ∃ r ∈ recs, '.' ∉ r.Host.data) :
    scanRecords flagName flagType recs st = none := by
  have hi := scanRecords_isSome_iff flagName flagType recs st
  cases hs : scanRecords flagName flagType recs st with
  | none => rfl
  | some x =>
    rw [hs] at hi
    obtain ⟨r, hr, hn⟩ := h
    exact absurd (hi.1 rfl r hr) hn

/-- Claim C9: `getDomainPrefix` returns (does not panic on the slice bound)
exactly when its argument contains a `.`; the scan of `main` over a record
list completes exactly when every Host contains a `.`; and in a run that
listed records, the process panics exactly when some Host is dot-free, in
which case the run stops right after the list call: no `addDNSRecord` and no
`updateDNSRecord` is invoked; `localhost` and the empty string are such
hosts. -/
theorem dot_free_host_aborts :
    (∀ host : String, (getDomainPrefix host).isSome = true ↔ '.' ∈ host.data) ∧
    (∀ (flagName flagType : String) (recs : List DNSRecord) (st : Bool × String),
      (scanRecords flagName flagType recs st).isSome = true ↔ ∀ r ∈ recs, '.' ∈ r.Host.data) ∧
    (∀ (w : World) (f : Flags) (v : String) (recs : List DNSRecord) (tr : List Event),
      Listed w f v recs tr →
        ((main w f).outcome = .panic ↔ ∃ r ∈ recs, '.' ∉ r.Host.data) ∧
        ((∃ r ∈ recs, '.' ∉ r.Host.data) →
          main w f = ⟨tr, .panic⟩ ∧
          ∀ e ∈ (main w f).trace, e.isAdd = false ∧ e.isUpdate = false)) ∧
    getDomainPrefix "localhost" = none ∧ getDomainPrefix "" = none := by
  refine ⟨getDomainPrefix_isSome_iff, scanRecords_isSome_iff, ?_, by decide, by decide⟩
  intro w f v recs tr hl
  have hmain := main_of_listed w f v recs tr hl
  have hpanic : (∃ r ∈ recs, '.' ∉ r.Host.data) → main w f = ⟨tr, .panic⟩ := by
    intro hex
    rw [hmain, scanRecords_none_of_dot_free _ _ _ _ hex]
  refine ⟨⟨?_, fun hex => by rw [hpanic hex]⟩, ?_⟩
  · intro hout
    by_contra hno
    have hall : ∀ r ∈ recs, '.' ∈ r.Host.data := by
      intro r hr
      by_contra hn
      exact hno ⟨r, hr, hn⟩
    rw [hmain, scanRecords_eq _ _ _ hall] at hout
    exact writeRecord_outcome_ne_panic _ _ _ _ _ _ hout
  · intro hex
    refine ⟨hpanic hex, ?_⟩
    rw [hpanic hex]
    exact listed_trace_no_write w f v recs tr hl

/-- Claim C1 as stated fails: the listed records hold a match for
(`home`, `A`), followed by a record whose Host is `localhost`; the run panics
in the scan and `updateDNSRecord` is never invoked. -/
theorem no_update_when_a_host_is_dot_free :
    Listed (demoWorld "LOCAL" "OK") demoFlags "203.0.113.5" localRecords
      [Event.getIP false, Event.httpGet "https://4.ipw.cn",
       Event.fetchDNSRecords "K" "example.com",
       Event.httpGet (listURL "K" "example.com")] ∧
    getDomainPrefix "home.example.com" = some demoFlags.flagName ∧
    (main (demoWorld "LOCAL" "OK") demoFlags).outcome = .panic ∧
    ∀ e ∈ (main (demoWorld "LOCAL" "OK") demoFlags).trace, e.isUpdate = false := by
  decide

/-- Claim C1, amended: in a run that listed records, if every Host contains a
`.` and some record matches the name and the type, the run goes on with
exactly one more call, `updateDNSRecord` with rrid the RecordID of the last
matching record in list order (no matching record comes after it), host the
name, the resolved value and ttl 7207, and `addDNSRecord` is not invoked. -/
theorem update_with_last_match (w : World) (f : Flags) (v : String) (recs : List DNSRecord)
    (tr : List Event) (hl : Listed w f v recs tr)
    (hdots : ∀ r ∈ recs, '.' ∈ r.Host.data)
    (hm : ∃ r ∈ recs, getDomainPrefix r.Host = some f.flagName ∧ r.Type_ = f.flagType) :
    ∃ r, lastMatch f.flagName f.flagType recs = some r ∧
      (∃ before after, recs = before ++ r :: after ∧
        (getDomainPrefix r.Host = some f.flagName ∧ r.Type_ = f.flagType) ∧
        ∀ x ∈ after, ¬ (getDomainPrefix x.Host = some f.flagName ∧ x.Type_ = f.flagType)) ∧
      (main w f).trace = tr ++
        [Event.updateDNSRecord f.flagKey f.flagDomain r.RecordID f.flagName v 7207,
          Event.httpGet (updateURL f.flagKey f.flagDomain r.RecordID f.flagName v 7207)] ∧
      ∀ e ∈ (main w f).trace, e.isAdd = false := by
  have hne : recs.filter (recordMatches f.flagName f.flagType) ≠ [] := by
    obtain ⟨r, hr, hrm⟩ := hm
    intro h0
    have : r ∈ recs.filter (recordMatches f.flagName f.flagType) :=
      List.mem_filter.2 ⟨hr, by simp [recordMatches, hrm.1, hrm.2]⟩
    rw [h0] at this
    exact absurd this (List.not_mem_nil _)
  cases hlm : lastMatch f.flagName f.flagType recs with
  | none =>
    unfold lastMatch at hlm
    exact absurd (List.getLast?_eq_none_iff.1 hlm) hne
  | some r =>
    refine ⟨r, rfl, ?_, ?_⟩
    · obtain ⟨ys, hys⟩ := List.getLast?_eq_some_iff.1 hlm
      obtain ⟨l1, l2, hrec, h1, h2⟩ := List.filter_eq_append_iff.1 hys
      obtain ⟨m1, m2, hl2, hm1, hm2⟩ := List.filter_eq_cons_iff.1 h2
      refine ⟨l1 ++ m1, m2, by rw [hrec, hl2, List.append_assoc], ?_, ?_⟩
      · simpa [recordMatches] using hm2.1
      · intro x hx
        have hx2 := List.filter_eq_nil_iff.1 hm2.2 x hx
        simpa [recordMatches] using hx2
    · rw [main_of_listed w f v recs tr hl, scanRecords_eq _ _ _ hdots, hlm]
      simp only [writeRecord_true]
      refine ⟨trivial, ?_⟩
      intro e he
      rcases List.mem_append.1 he with h | h
      · exact (listed_trace_no_write w f v recs tr hl e h).1
      · simp only [List.mem_cons, List.mem_singleton, List.not_mem_nil, or_false] at h
        rcases h with rfl | rfl <;> rfl

/-- Witness of `update_with_last_match`: the end-to-end scenario with three
matching records, where the update goes to the last one, `r3`. -/
theorem update_with_last_match_witness :
    ∃ r, lastMatch demoFlags.flagName demoFlags.flagType demoRecords = some r ∧
      r.RecordID = "r3" ∧
      (main (demoWorld "LIST" "OK") demoFlags).trace =
        [Event.getIP false, Event.httpGet "https://4.ipw.cn",
          Event.fetchDNSRecords "K" "example.com",
          Event.httpGet (listURL "K" "example.com")] ++
        [Event.updateDNSRecord demoFlags.flagKey demoFlags.flagDomain r.RecordID
            demoFlags.flagName "203.0.113.5" 7207,
          Event.httpGet (updateURL demoFlags.flagKey demoFlags.flagDomain r.RecordID
            demoFlags.flagName "203.0.113.5" 7207)] := by
  obtain ⟨r, h1, _, h3, _⟩ := update_with_last_match (demoWorld "LIST" "OK") demoFlags
    "203.0.113.5" demoRecords
    [Event.getIP false, Event.httpGet "https://4.ipw.cn",
      Event.fetchDNSRecords "K" "example.com",
      Event.httpGet (listURL "K" "example.com")] (by decide) (by decide)
    ⟨⟨"r1", "A", "home.example.com", "203.0.113.2", "7207", 0⟩, by decide, by decide⟩
  refine ⟨r, h1, ?_, h3⟩
  have h2 : lastMatch demoFlags.flagName demoFlags.flagType demoRecords
      = some ⟨"r3", "A", "home.example.com", "203.0.113.3", "7207", 0⟩ := by
    decide
  rw [h2] at h1
  rw [← Option.some.inj h1]

/-- Claim C2 as stated fails: no listed record matches (`office`, `A`), but
one Host is `localhost`; the run panics in the scan and `addDNSRecord` is
never invoked. -/
theorem no_add_when_a_host_is_dot_free :
    Listed (demoWorld "LOCAL" "OK") officeFlags "203.0.113.5" localRecords
      [Event.getIP false, Event.httpGet "https://4.ipw.cn",
       Event.fetchDNSRecords "K" "example.com",
       Event.httpGet (listURL "K" "example.com")] ∧
    (∀ r ∈ localRecords, ¬ (getDomainPrefix r.Host = some officeFlags.flagName ∧
      r.Type_ = officeFlags.flagType)) ∧
    (main (demoWorld "LOCAL" "OK") officeFlags).outcome = .panic ∧
    ∀ e ∈ (main (demoWorld "LOCAL" "OK") officeFlags).trace, e.isAdd = false := by
  decide

/-- Claim C2, amended: in a run that listed records, if every Host contains a
`.` and no record matches the name and the type, the run goes on with exactly
one more call, `addDNSRecord` with the domain, the type, host the name, the
resolved value and ttl 7207; it is the only invocation of `addDNSRecord` in
the run, and `updateDNSRecord` is not invoked. -/
theorem add_once_when_no_match (w : World) (f : Flags) (v : String) (recs : List DNSRecord)
    (tr : List Event) (hl : Listed w f v recs tr)
    (hdots : ∀ r ∈ recs, '.' ∈ r.Host.data)
    (hno : ∀ r ∈ recs, ¬ (getDomainPrefix r.Host = some f.flagName ∧ r.Type_ = f.flagType)) :
    (main w f).trace = tr ++
        [Event.addDNSRecord f.flagKey f.flagDomain f.flagType f.flagName v 7207,
          Event.httpGet (addURL f.flagKey f.flagDomain f.flagType f.flagName v 7207)] ∧
      (main w f).trace.filter Event.isAdd
        = [Event.addDNSRecord f.flagKey f.flagDomain f.flagType f.flagName v 7207] ∧
      ∀ e ∈ (main w f).trace, e.isUpdate = false := by
  have hlm : lastMatch f.flagName f.flagType recs = none := by
    unfold lastMatch
    rw [List.getLast?_eq_none_iff, List.filter_eq_nil_iff]
    intro r hr
    simpa [recordMatches] using hno r hr
  have hnw := listed_trace_no_write w f v recs tr hl
  have hfil : tr.filter Event.isAdd = [] := by
    rw [List.filter_eq_nil_iff]
    intro e he
    simp [(hnw e he).1]
  rw [main_of_listed w f v recs tr hl, scanRecords_eq _ _ _ hdots, hlm]
  simp only [writeRecord_false]
  refine ⟨trivial, ?_, ?_⟩
  · rw [List.filter_append, hfil]
    rfl
  · intro e he
    rcases List.mem_append.1 he with h | h
    · exact (hnw e h).2
    · simp only [List.mem_cons, List.mem_singleton, List.not_mem_nil, or_false] at h
      rcases h with rfl | rfl <;> rfl

/-- Witness of `add_once_when_no_match`: the end-to-end scenario for a name
without a record. -/
theorem add_once_when_no_match_witness :
    (main (demoWorld "LIST" "OK") officeFlags).trace =
      [Event.getIP false, Event.httpGet "https://4.ipw.cn",
        Event.fetchDNSRecords "K" "example.com",
        Event.httpGet (listURL "K" "example.com")] ++
      [Event.addDNSRecord officeFlags.flagKey officeFlags.flagDomain officeFlags.flagType
          officeFlags.flagName "203.0.113.5" 7207,
        Event.httpGet (addURL officeFlags.flagKey officeFlags.flagDomain officeFlags.flagType
          officeFlags.flagName "203.0.113.5" 7207)] :=
  (add_once_when_no_match (demoWorld "LIST" "OK") officeFlags "203.0.113.5" demoRecords
    [Event.getIP false, Event.httpGet "https://4.ipw.cn",
      Event.fetchDNSRecords "K" "example.com",
      Event.httpGet (listURL "K" "example.com")] (by decide) (by decide) (by decide)).1

/-! ## The claims on the flags and on the record value -/

/-- Claim C7: without `--help`, if `--domain`, `--name` or `--key` is empty,
the run prints the usage and ends in a fatal error with a non-zero exit
status, and no network call is made: no event of the run is an invocation of
`getIP`, `fetchDNSRecords`, `addDNSRecord` or `updateDNSRecord`, nor an
`http.Get`. -/
theorem missing_flag_is_fatal (w : World) (f : Flags) (hh : f.h = false)
    (hm : f.flagDomain = "" ∨ f.flagName = "" ∨ f.flagKey = "") :
    main w f = ⟨[Event.usage],
        .fatal "Please verify if the parameters you have have entered are correct."⟩ ∧
      (main w f).outcome.exitCode ≠ 0 ∧
      ∀ e ∈ (main w f).trace, e.isNetwork = false := by
  have hmain : main w f = ⟨[Event.usage],
      .fatal "Please verify if the parameters you have have entered are correct."⟩ := by
    simp [main, hh, hm]
  rw [hmain]
  refine ⟨rfl, by simp [Outcome.exitCode], ?_⟩
  intro e he
  simp only [List.mem_singleton] at he
  subst he
  rfl

/-- Witness of `missing_flag_is_fatal`: a run without `--key`. -/
theorem missing_flag_is_fatal_witness :
    keylessFlags.h = false ∧
      main (demoWorld "LIST" "OK") keylessFlags = ⟨[Event.usage],
        .fatal "Please verify if the parameters you have have entered are correct."⟩ :=
  ⟨rfl, (missing_flag_is_fatal (demoWorld "LIST" "OK") keylessFlags rfl
    (Or.inr (Or.inr rfl))).1⟩

theorem resolveRecordValue_of_record (w : World) (f : Flags) (tr : List Event)
    (hrec : f.flagRecord ≠ "") : resolveRecordValue w f tr = (.ok f.flagRecord, tr) := by
  simp [resolveRecordValue, hrec]

/-- Claim C5: in every run with a non-empty `--record`, `getIP` is never
invoked, and every invocation of `addDNSRecord` or `updateDNSRecord` is passed
exactly the `--record` value as rrvalue. -/
theorem record_flag_skips_getIP (w : World) (f : Flags) (hrec : f.flagRecord ≠ "") :
    ∀ e ∈ (main w f).trace,
      e.isGetIP = false ∧ ∀ v, e.writtenValue = some v → v = f.flagRecord := by
  have hres := resolveRecordValue_of_record w f [] hrec
  rcases main_cases w f with ⟨_, hm⟩ | ⟨_, _, hm⟩ | ⟨_, _, h0, _⟩ | ⟨v, err, _, _, _, _, hm⟩ |
      ⟨v, recs, tr, hl⟩
  · rw [hm]
    intro e he
    simp only [List.mem_singleton] at he
    subst he
    exact ⟨rfl, fun v hv => by simp [Event.writtenValue] at hv⟩
  · rw [hm]
    intro e he
    simp only [List.mem_singleton] at he
    subst he
    exact ⟨rfl, fun v hv => by simp [Event.writtenValue] at hv⟩
  · exact absurd h0 hrec
  · rw [hm, hres]
    intro e he
    simp only [List.nil_append, List.mem_cons, List.mem_singleton, List.not_mem_nil,
      or_false] at he
    rcases he with rfl | rfl <;> exact ⟨rfl, fun v hv => by simp [Event.writtenValue] at hv⟩
  · have htr := trace_of_listed w f v recs tr hl
    rw [if_neg hrec, List.nil_append] at htr
    have hv : v = f.flagRecord := by
      have h3 := hl.2.2.1
      rw [hres] at h3
      exact (Except.ok.inj h3).symm
    have hbase : ∀ e ∈ tr, e.isGetIP = false ∧ ∀ x, e.writtenValue = some x → x = f.flagRecord := by
      rw [htr]
      intro e he
      simp only [List.mem_cons, List.mem_singleton, List.not_mem_nil, or_false] at he
      rcases he with rfl | rfl <;> exact ⟨rfl, fun v hv => by simp [Event.writtenValue] at hv⟩
    rw [main_of_listed w f v recs tr hl]
    rcases hs : scanRecords f.flagName f.flagType recs (false, "") with _ | ⟨ae, rid⟩
    · exact hbase
    · cases ae
      · simp only [writeRecord_false]
        intro e he
        rcases List.mem_append.1 he with h | h
        · exact hbase e h
        · simp only [List.mem_cons, List.mem_singleton, List.not_mem_nil, or_false] at h
          rcases h with rfl | rfl
          · exact ⟨rfl, fun x hx => by simpa [Event.writtenValue, hv] using hx.symm⟩
          · exact ⟨rfl, fun x hx => by simp [Event.writtenValue] at hx⟩
      · simp only [writeRecord_true]
        intro e he
        rcases List.mem_append.1 he with h | h
        · exact hbase e h
        · simp only [List.mem_cons, List.mem_singleton, List.not_mem_nil, or_false] at h
          rcases h with rfl | rfl
          · exact ⟨rfl, fun x hx => by simpa [Event.writtenValue, hv] using hx.symm⟩
          · exact ⟨rfl, fun x hx => by simp [Event.writtenValue] at hx⟩

/-- Witness of `record_flag_skips_getIP`: a run with `--record 2001:db8::7`,
whose update carries that value. -/
theorem record_flag_skips_getIP_witness :
    recordFlags.flagRecord ≠ "" ∧
      Event.updateDNSRecord "K" "example.com" "r2" "home" "2001:db8::7" 7207
        ∈ (main (demoWorld "LIST" "OK") recordFlags).trace ∧
      ∀ e ∈ (main (demoWorld "LIST" "OK") recordFlags).trace,
        e.isGetIP = false ∧ ∀ v, e.writtenValue = some v → v = recordFlags.flagRecord :=
  ⟨by decide, by decide, record_flag_skips_getIP (demoWorld "LIST" "OK") recordFlags (by decide)⟩

/-- Claim C6: in every run with `--record` empty, every invocation of `getIP`
is made with the IPv6 choice that `--type` makes (true exactly when the type
is `AAAA`) and is followed by its request to `https://6.ipw.cn` when the type
is `AAAA` and to `https://4.ipw.cn` for every other type; and once the flag
checks are passed, `getIP` is invoked exactly once, as the first step of the
run. -/
theorem getIP_endpoint_by_type (w : World) (f : Flags) (hrec : f.flagRecord = "") :
    (∀ pre post b, (main w f).trace = pre ++ Event.getIP b :: post →
      b = decide (f.flagType = "AAAA") ∧
      ∃ rest, post = Event.httpGet (if f.flagType = "AAAA" then "https://6.ipw.cn"
        else "https://4.ipw.cn") :: rest) ∧
    (f.h = false → (f.flagDomain ≠ "" ∧ f.flagName ≠ "" ∧ f.flagKey ≠ "") →
      ∃ rest, (main w f).trace =
          Event.getIP (decide (f.flagType = "AAAA")) ::
            Event.httpGet (if f.flagType = "AAAA" then "https://6.ipw.cn"
              else "https://4.ipw.cn") :: rest ∧
        ∀ e ∈ rest, e.isGetIP = false) := by
  have hurl : ipURL (decide (f.flagType = "AAAA"))
      = if f.flagType = "AAAA" then "https://6.ipw.cn" else "https://4.ipw.cn" := by
    by_cases ht : f.flagType = "AAAA" <;> simp [ipURL, ht]
  have key : (f.h = false ∧ (f.flagDomain ≠ "" ∧ f.flagName ≠ "" ∧ f.flagKey ≠ "")) →
      ∃ rest, (main w f).trace =
          Event.getIP (decide (f.flagType = "AAAA")) ::
            Event.httpGet (if f.flagType = "AAAA" then "https://6.ipw.cn"
              else "https://4.ipw.cn") :: rest ∧
        ∀ e ∈ rest, e.isGetIP = false := by
    rintro ⟨hh, hreq⟩
    have hn : ¬ (f.flagDomain = "" ∨ f.flagName = "" ∨ f.flagKey = "") := by
      rintro (h | h | h)
      · exact hreq.1 h
      · exact hreq.2.1 h
      · exact hreq.2.2 h
    have hR := resolveRecordValue_trace w f []
    rw [if_pos hrec, List.nil_append, hurl] at hR
    rcases main_cases w f with ⟨h1, _⟩ | ⟨_, h2, _⟩ | ⟨_, _, _, _, hm⟩ | ⟨v, err, _, _, _, _, hm⟩ |
        ⟨v, recs, tr, hl⟩
    · rw [hh] at h1
      exact absurd h1 (by simp)
    · exact absurd h2 hn
    · rw [hm, hurl]
      exact ⟨[], rfl, by simp⟩
    · rw [hm, hR]
      refine ⟨[Event.fetchDNSRecords f.flagKey f.flagDomain,
        Event.httpGet (listURL f.flagKey f.flagDomain)], rfl, ?_⟩
      intro e he
      simp only [List.mem_cons, List.mem_singleton, List.not_mem_nil, or_false] at he
      rcases he with rfl | rfl <;> rfl
    · have htr := trace_of_listed w f v recs tr hl
      rw [if_pos hrec, hurl] at htr
      rw [main_of_listed w f v recs tr hl]
      rcases hs : scanRecords f.flagName f.flagType recs (false, "") with _ | ⟨ae, rid⟩
      · simp only [htr]
        refine ⟨[Event.fetchDNSRecords f.flagKey f.flagDomain,
          Event.httpGet (listURL f.flagKey f.flagDomain)], rfl, ?_⟩
        intro e he
        simp only [List.mem_cons, List.mem_singleton, List.not_mem_nil, or_false] at he
        rcases he with rfl | rfl <;> rfl
      · cases ae
        · simp only [writeRecord_false, htr]
          refine ⟨[Event.fetchDNSRecords f.flagKey f.flagDomain,
            Event.httpGet (listURL f.flagKey f.flagDomain),
            Event.addDNSRecord f.flagKey f.flagDomain f.flagType f.flagName v 7207,
            Event.httpGet (addURL f.flagKey f.flagDomain f.flagType f.flagName v 7207)],
            rfl, ?_⟩
          intro e he
          simp only [List.mem_cons, List.mem_singleton, List.not_mem_nil, or_false] at he
          rcases he with rfl | rfl | rfl | rfl <;> rfl
        · simp only [writeRecord_true, htr]
          refine ⟨[Event.fetchDNSRecords f.flagKey f.flagDomain,
            Event.httpGet (listURL f.flagKey f.flagDomain),
            Event.updateDNSRecord f.flagKey f.flagDomain rid f.flagName v 7207,
            Event.httpGet (updateURL f.flagKey f.flagDomain rid f.flagName v 7207)],
            rfl, ?_⟩
          intro e he
          simp only [List.mem_cons, List.mem_singleton, List.not_mem_nil, or_false] at he
          rcases he with rfl | rfl | rfl | rfl <;> rfl
  refine ⟨?_, fun hh hreq => key ⟨hh, hreq⟩⟩
  intro pre post b htr
  have he : Event.getIP b ∈ (main w f).trace := by
    rw [htr]
    exact List.mem_append_right _ (List.mem_cons_self _ _)
  have hpass : f.h = false ∧ (f.flagDomain ≠ "" ∧ f.flagName ≠ "" ∧ f.flagKey ≠ "") := by
    rcases main_cases w f with ⟨_, hm⟩ | ⟨_, _, hm⟩ | ⟨h1, h2, _⟩ | ⟨_, _, h1, h2, _⟩ |
        ⟨_, _, _, hl⟩
    · rw [hm] at he
      simp at he
    · rw [hm] at he
      simp at he
    · exact ⟨h1, h2⟩
    · exact ⟨h1, h2⟩
    · exact ⟨hl.1, hl.2.1⟩
  obtain ⟨rest, ht, hrest⟩ := key hpass
  rw [ht] at htr
  cases pre with
  | nil =>
    simp only [List.nil_append, List.cons.injEq, Event.getIP.injEq] at htr
    exact ⟨htr.1.symm, rest, htr.2.symm⟩
  | cons p pre2 =>
    exfalso
    simp only [List.cons_append, List.cons.injEq] at htr
    have hmem : Event.getIP b ∈ Event.httpGet (if f.flagType = "AAAA" then "https://6.ipw.cn"
        else "https://4.ipw.cn") :: rest := by
      rw [htr.2]
      exact List.mem_append_right _ (List.mem_cons_self _ _)
    rcases List.mem_cons.1 hmem with h | h
    · exact absurd h (by simp)
    · have := hrest _ h
      simp [Event.isGetIP] at this

/-- Witness of `getIP_endpoint_by_type`: with type `A` the first request goes
to `https://4.ipw.cn`. -/
theorem getIP_endpoint_by_type_witness :
    demoFlags.flagRecord = "" ∧
      ∃ rest, (main (demoWorld "LIST" "OK") demoFlags).trace =
          Event.getIP (decide (demoFlags.flagType = "AAAA")) ::
            Event.httpGet (if demoFlags.flagType = "AAAA" then "https://6.ipw.cn"
              else "https://4.ipw.cn") :: rest ∧
        ∀ e ∈ rest, e.isGetIP = false :=
  ⟨rfl, (getIP_endpoint_by_type (demoWorld "LIST" "OK") demoFlags rfl).2 rfl
    ⟨by decide, by decide, by decide⟩⟩

/-! ## The claims on errors -/

theorem containsText_append_right (a b : String) : containsText (a ++ b) b := by
  unfold containsText
  rw [String.data_append]
  exact (List.suffix_append a.data b.data).isInfix

theorem containsText_append_of_right (a b c : String) (h : containsText b c) :
    containsText (a ++ b) c := by
  unfold containsText at h ⊢
  rw [String.data_append]
  exact h.trans (List.suffix_append a.data b.data).isInfix

theorem fetchDNSRecords_of_reply (w : World) (k d : String) (tr : List Event) (b : String)
    (r : APIResponse)
    (hb : w.httpGet (tr ++ [Event.fetchDNSRecords k d]) (listURL k d) = .body b)
    (hr : w.unmarshal b = .ok r) (hc : r.Reply.Code ≠ 300) :
    (fetchDNSRecords w k d tr).1 = .error ("API response error: " ++ r.Reply.Detail) := by
  unfold listURL at hb
  simp [fetchDNSRecords, hb, hr, hc]

theorem addDNSRecord_of_reply (w : World) (k d t h v : String) (ttl : Int) (tr : List Event)
    (b : String) (r : APIResponse)
    (hb : w.httpGet (tr ++ [Event.addDNSRecord k d t h v ttl]) (addURL k d t h v ttl) = .body b)
    (hr : w.unmarshal b = .ok r) (hc : r.Reply.Code ≠ 300) :
    (addDNSRecord w k d t h v ttl tr).1 = .error ("API response error: " ++ r.Reply.Detail) := by
  unfold addURL at hb
  simp [addDNSRecord, hb, hr, hc]

theorem updateDNSRecord_of_reply (w : World) (k d i h v : String) (ttl : Int) (tr : List Event)
    (b : String) (r : APIResponse)
    (hb : w.httpGet (tr ++ [Event.updateDNSRecord k d i h v ttl]) (updateURL k d i h v ttl)
      = .body b)
    (hr : w.unmarshal b = .ok r) (hc : r.Reply.Code ≠ 300) :
    (updateDNSRecord w k d i h v ttl tr).1
      = .error ("API response error: " ++ r.Reply.Detail) := by
  unfold updateURL at hb
  simp [updateDNSRecord, hb, hr, hc]

/-- Where an invocation followed by its request can sit in a trace that ends
with an invocation and its request. -/
theorem split_snoc_pair (T pre post : List Event) (c e : Event) (u url : String)
    (hc : ∀ x, c ≠ Event.httpGet x)
    (h : T ++ [c, Event.httpGet u] = pre ++ e :: Event.httpGet url :: post) :
    (pre = T ∧ e = c ∧ url = u ∧ post = []) ∨
      ∃ rest, post = rest ++ [c, Event.httpGet u] ∧ T = pre ++ e :: Event.httpGet url :: rest := by
  rcases List.eq_nil_or_concat post with rfl | ⟨L, y, rfl⟩
  · left
    have h2 := List.append_inj' h rfl
    obtain ⟨h3, h4⟩ := h2
    simp only [List.cons.injEq, Event.httpGet.injEq, and_true] at h4
    exact ⟨h3.symm, h4.1.symm, h4.2.symm, rfl⟩
  · rcases List.eq_nil_or_concat L with rfl | ⟨M, x, rfl⟩
    · exfalso
      have h1 : T ++ [c, Event.httpGet u] = (pre ++ [e]) ++ [Event.httpGet url, y] := by
        rw [h]; simp
      have h2 := (List.append_inj' h1 rfl).2
      simp only [List.cons.injEq, and_true] at h2
      exact hc url h2.1
    · right
      refine ⟨M, ?_, ?_⟩
      · have h1 : T ++ [c, Event.httpGet u]
            = (pre ++ e :: Event.httpGet url :: M) ++ [x, y] := by
          rw [h]; simp
        have h2 := (List.append_inj' h1 rfl).2
        simp only [List.cons.injEq, and_true] at h2
        rw [← h2.1, ← h2.2]
        simp
      · have h1 : T ++ [c, Event.httpGet u]
            = (pre ++ e :: Event.httpGet url :: M) ++ [x, y] := by
          rw [h]; simp
        exact (List.append_inj' h1 rfl).1

theorem resolve_trace_no_api (w : World) (f : Flags) (pre post : List Event) (e : Event)
    (url : String) (he : e.isApiCall = true)
    (h : (resolveRecordValue w f []).2 = pre ++ e :: Event.httpGet url :: post) : False := by
  rw [resolveRecordValue_trace] at h
  by_cases hrec : f.flagRecord = ""
  · rw [if_pos hrec] at h
    rcases split_snoc_pair [] pre post _ e _ url (by simp) h with ⟨_, h2, _⟩ | ⟨rest, _, h2⟩
    · subst h2
      simp [Event.isApiCall] at he
    · have hlen := congrArg List.length h2
      simp at hlen
      omega
  · rw [if_neg hrec] at h
    have hlen := congrArg List.length h
    simp at hlen
    omega

theorem fetch_pair_failed (w : World) (f : Flags) (pre post : List Event) (e : Event)
    (url b : String) (r : APIResponse) (he : e.isApiCall = true)
    (h : (resolveRecordValue w f []).2 ++ [Event.fetchDNSRecords f.flagKey f.flagDomain,
        Event.httpGet (listURL f.flagKey f.flagDomain)] = pre ++ e :: Event.httpGet url :: post)
    (hb : w.httpGet (pre ++ [e]) url = .body b) (hr : w.unmarshal b = .ok r)
    (hc : r.Reply.Code ≠ 300) :
    post = [] ∧
      (fetchDNSRecords w f.flagKey f.flagDomain (resolveRecordValue w f []).2).1
        = .error ("API response error: " ++ r.Reply.Detail) := by
  rcases split_snoc_pair _ pre post _ e _ url (by simp) h with ⟨h1, h2, h3, h4⟩ | ⟨rest, _, h2⟩
  · subst h1 h2 h3
    exact ⟨h4, fetchDNSRecords_of_reply w _ _ _ b r hb hr hc⟩
  · exact (resolve_trace_no_api w f pre rest e url he h2).elim

theorem listed_trace_no_failed_api (w : World) (f : Flags) (v : String)
    (recs : List DNSRecord) (tr : List Event) (hl : Listed w f v recs tr)
    (pre post : List Event) (e : Event) (url b : String) (r : APIResponse)
    (he : e.isApiCall = true) (h : tr = pre ++ e :: Event.httpGet url :: post)
    (hb : w.httpGet (pre ++ [e]) url = .body b) (hr : w.unmarshal b = .ok r)
    (hc : r.Reply.Code ≠ 300) : False := by
  have h2 := fetchDNSRecords_trace w f.flagKey f.flagDomain (resolveRecordValue w f []).2
  have h3 := hl.2.2.2
  rw [h3] at h2
  simp only at h2
  rw [h2] at h
  have h4 := (fetch_pair_failed w f pre post e url b r he h hb hr hc).2
  rw [h3] at h4
  simp at h4

theorem main_stops_at_api_error (w : World) (f : Flags) (pre post : List Event) (e : Event)
    (url b : String) (r : APIResponse)
    (h : (main w f).trace = pre ++ e :: Event.httpGet url :: post)
    (he : e.isApiCall = true) (hb : w.httpGet (pre ++ [e]) url = .body b)
    (hr : w.unmarshal b = .ok r) (hc : r.Reply.Code ≠ 300) :
    post = [] ∧ ∃ msg, (main w f).outcome = .fatal msg ∧ containsText msg r.Reply.Detail := by
  have hct : ∀ a : String, containsText (a ++ ("API response error: " ++ r.Reply.Detail))
      r.Reply.Detail :=
    fun a => containsText_append_of_right _ _ _ (containsText_append_right _ _)
  rcases main_cases w f with ⟨_, hm⟩ | ⟨_, _, hm⟩ | ⟨_, _, _, _, hm⟩ |
      ⟨v, err, _, _, hv, herr, hm⟩ | ⟨v, recs, tr, hl⟩
  · rw [hm] at h
    have hlen := congrArg List.length h
    simp at hlen
    omega
  · rw [hm] at h
    have hlen := congrArg List.length h
    simp at hlen
    omega
  · rw [hm] at h
    simp only at h
    rcases split_snoc_pair [] pre post _ e _ url (by simp) h with ⟨_, h2, _⟩ | ⟨rest, _, h2⟩
    · subst h2
      simp [Event.isApiCall] at he
    · have hlen := congrArg List.length h2
      simp at hlen
      omega
  · rw [hm] at h ⊢
    simp only at h
    obtain ⟨hp, hf⟩ := fetch_pair_failed w f pre post e url b r he h hb hr hc
    rw [herr] at hf
    have herr2 : err = "API response error: " ++ r.Reply.Detail := Except.error.inj hf
    subst herr2
    exact ⟨hp, _, rfl, hct _⟩
  · rw [main_of_listed w f v recs tr hl] at h ⊢
    rcases hs : scanRecords f.flagName f.flagType recs (false, "") with _ | ⟨ae, rid⟩
    · rw [hs] at h
      simp only at h
      exact (listed_trace_no_failed_api w f v recs tr hl pre post e url b r he h hb hr hc).elim
    · rw [hs] at h
      cases ae
      · simp only [writeRecord_false] at h ⊢
        rcases split_snoc_pair tr pre post _ e _ url (by simp) h with
          ⟨h1, h2, h3, h4⟩ | ⟨rest, _, h2⟩
        · subst h1 h2 h3
          rw [addDNSRecord_of_reply w _ _ _ _ _ _ _ b r hb hr hc]
          exact ⟨h4, _, rfl, hct _⟩
        · exact (listed_trace_no_failed_api w f v recs tr hl pre rest e url b r he h2
            hb hr hc).elim
      · simp only [writeRecord_true] at h ⊢
        rcases split_snoc_pair tr pre post _ e _ url (by simp) h with
          ⟨h1, h2, h3, h4⟩ | ⟨rest, _, h2⟩
        · subst h1 h2 h3
          rw [updateDNSRecord_of_reply w _ _ _ _ _ _ _ b r hb hr hc]
          exact ⟨h4, _, rfl, hct _⟩
        · exact (listed_trace_no_failed_api w f v recs tr hl pre rest e url b r he h2
            hb hr hc).elim

/-- Claim C4: when the reply decoded by `fetchDNSRecords`, `addDNSRecord` or
`updateDNSRecord` has a code other than 300, the function returns the error
`API response error: ` followed by the reply's detail, which contains the
detail, with no result value, after its single request; and in every run of
`main`, a request of one of these three functions that is answered by such a
reply is the last event of the run (nothing is called after it), the run
ending in a fatal error whose message contains the detail. -/
theorem api_error_is_final :
    (∀ (w : World) (k d : String) (tr : List Event) (b : String) (r : APIResponse),
      w.httpGet (tr ++ [Event.fetchDNSRecords k d]) (listURL k d) = .body b →
      w.unmarshal b = .ok r → r.Reply.Code ≠ 300 →
      fetchDNSRecords w k d tr = (.error ("API response error: " ++ r.Reply.Detail),
        tr ++ [Event.fetchDNSRecords k d, Event.httpGet (listURL k d)]) ∧
      containsText ("API response error: " ++ r.Reply.Detail) r.Reply.Detail) ∧
    (∀ (w : World) (k d t h v : String) (ttl : Int) (tr : List Event) (b : String)
      (r : APIResponse),
      w.httpGet (tr ++ [Event.addDNSRecord k d t h v ttl]) (addURL k d t h v ttl) = .body b →
      w.unmarshal b = .ok r → r.Reply.Code ≠ 300 →
      addDNSRecord w k d t h v ttl tr = (.error ("API response error: " ++ r.Reply.Detail),
        tr ++ [Event.addDNSRecord k d t h v ttl, Event.httpGet (addURL k d t h v ttl)]) ∧
      containsText ("API response error: " ++ r.Reply.Detail) r.Reply.Detail) ∧
    (∀ (w : World) (k d i h v : String) (ttl : Int) (tr : List Event) (b : String)
      (r : APIResponse),
      w.httpGet (tr ++ [Event.updateDNSRecord k d i h v ttl]) (updateURL k d i h v ttl)
        = .body b →
      w.unmarshal b = .ok r → r.Reply.Code ≠ 300 →
      updateDNSRecord w k d i h v ttl tr = (.error ("API response error: " ++ r.Reply.Detail),
        tr ++ [Event.updateDNSRecord k d i h v ttl,
          Event.httpGet (updateURL k d i h v ttl)]) ∧
      containsText ("API response error: " ++ r.Reply.Detail) r.Reply.Detail) ∧
    (∀ (w : World) (f : Flags) (pre post : List Event) (e : Event) (url b : String)
      (r : APIResponse),
      (main w f).trace = pre ++ e :: Event.httpGet url :: post →
      e.isApiCall = true → w.httpGet (pre ++ [e]) url = .body b →
      w.unmarshal b = .ok r → r.Reply.Code ≠ 300 →
      post = [] ∧
        ∃ msg, (main w f).outcome = .fatal msg ∧ containsText msg r.Reply.Detail) := by
  refine ⟨?_, ?_, ?_, main_stops_at_api_error⟩
  · intro w k d tr b r hb hr hc
    refine ⟨Prod.ext (fetchDNSRecords_of_reply w k d tr b r hb hr hc)
      (fetchDNSRecords_trace w k d tr), containsText_append_right _ _⟩
  · intro w k d t h v ttl tr b r hb hr hc
    refine ⟨Prod.ext (addDNSRecord_of_reply w k d t h v ttl tr b r hb hr hc)
      (addDNSRecord_trace w k d t h v ttl tr), containsText_append_right _ _⟩
  · intro w k d i h v ttl tr b r hb hr hc
    refine ⟨Prod.ext (updateDNSRecord_of_reply w k d i h v ttl tr b r hb hr hc)
      (updateDNSRecord_trace w k d i h v ttl tr), containsText_append_right _ _⟩

/-- Witness of `api_error_is_final`: the provider refuses the update with
code 110 and the detail `Invalid API key`; the run ends there, in a fatal
error that contains the detail. -/
theorem api_error_is_final_witness :
    (main (demoWorld "LIST" "DENIED") demoFlags).trace =
      [Event.getIP false, Event.httpGet "https://4.ipw.cn",
        Event.fetchDNSRecords "K" "example.com", Event.httpGet (listURL "K" "example.com")]
      ++ Event.updateDNSRecord "K" "example.com" "r3" "home" "203.0.113.5" 7207
        :: Event.httpGet (updateURL "K" "example.com" "r3" "home" "203.0.113.5" 7207) :: [] ∧
    ([] : List Event) = [] ∧
      ∃ msg, (main (demoWorld "LIST" "DENIED") demoFlags).outcome = .fatal msg ∧
        containsText msg "Invalid API key" :=
  ⟨by decide, api_error_is_final.2.2.2 (demoWorld "LIST" "DENIED") demoFlags
    [Event.getIP false, Event.httpGet "https://4.ipw.cn",
      Event.fetchDNSRecords "K" "example.com", Event.httpGet (listURL "K" "example.com")] []
    (Event.updateDNSRecord "K" "example.com" "r3" "home" "203.0.113.5" 7207)
    (updateURL "K" "example.com" "r3" "home" "203.0.113.5" 7207) "DENIED"
    ⟨"any", "198.51.100.1", ⟨110, "Invalid API key", "", []⟩⟩
    (by decide) (by decide) (by decide) (by decide) (by decide)⟩

/-- Claim C8 as stated fails: with no route to the echo endpoint, `getIP`
returns the error `dial tcp: network is unreachable`, and the run ends in the
fatal message `Unable to obtain IP value`, which does not contain that text. -/
theorem resolver_error_text_is_dropped :
    (getIP offlineWorld false []).1 = ("", some "dial tcp: network is unreachable") ∧
    main offlineWorld demoFlags
      = ⟨[Event.getIP false, Event.httpGet "https://4.ipw.cn"],
          .fatal "Unable to obtain IP value"⟩ ∧
    ¬ containsText "Unable to obtain IP value" "dial tcp: network is unreachable" := by
  decide

/-- The message of a failed `addDNSRecord` in the scenario of a refused
request: it starts with the words of the update branch. -/
theorem add_failure_message :
    (main (demoWorld "LIST" "DENIED") officeFlags).outcome
      = .fatal "Error update DNS records: API response error: Invalid API key" := by
  decide

/-- Claim C8, amended: a fatal error at ListRecords has the message
`Error fetching DNS records: ` followed by the underlying error, and a fatal
error at Update the message `Error update DNS records: ` followed by the
underlying error; a fatal error at Add has a message that contains the
underlying error; a fatal error at ResolveIP has the fixed message
`Unable to obtain IP value`, without any text of the resolver's error. -/
theorem fatal_message_by_stage (w : World) (f : Flags) (hh : f.h = false)
    (hreq : f.flagDomain ≠ "" ∧ f.flagName ≠ "" ∧ f.flagKey ≠ "") :
    (∀ o, (resolveRecordValue w f []).1 = .error o →
      (main w f).outcome = .fatal "Unable to obtain IP value") ∧
    (∀ v err, (resolveRecordValue w f []).1 = .ok v →
      (fetchDNSRecords w f.flagKey f.flagDomain (resolveRecordValue w f []).2).1 = .error err →
      (main w f).outcome = .fatal ("Error fetching DNS records: " ++ err) ∧
      containsText ("Error fetching DNS records: " ++ err) err) ∧
    (∀ v recs tr rid err, Listed w f v recs tr →
      scanRecords f.flagName f.flagType recs (false, "") = some (true, rid) →
      (updateDNSRecord w f.flagKey f.flagDomain rid f.flagName v 7207 tr).1 = .error err →
      (main w f).outcome = .fatal ("Error update DNS records: " ++ err) ∧
      containsText ("Error update DNS records: " ++ err) err) ∧
    (∀ v recs tr rid err, Listed w f v recs tr →
      scanRecords f.flagName f.flagType recs (false, "") = some (false, rid) →
      (addDNSRecord w f.flagKey f.flagDomain f.flagType f.flagName v 7207 tr).1 = .error err →
      ∃ msg, (main w f).outcome = .fatal msg ∧ containsText msg err) := by
  have hn : ¬ (f.flagDomain = "" ∨ f.flagName = "" ∨ f.flagKey = "") := by
    rintro (h | h | h)
    · exact hreq.1 h
    · exact hreq.2.1 h
    · exact hreq.2.2 h
  refine ⟨?_, ?_, ?_, ?_⟩
  · intro o h1
    rcases main_cases w f with ⟨h0, _⟩ | ⟨_, h0, _⟩ | ⟨_, _, _, _, hm⟩ | ⟨v, err, _, _, h0, _⟩ |
        ⟨v, recs, tr, hl⟩
    · rw [hh] at h0
      exact absurd h0 (by simp)
    · exact absurd h0 hn
    · rw [hm]
    · rw [h1] at h0
      exact absurd h0 (by simp)
    · have h0 := hl.2.2.1
      rw [h1] at h0
      exact absurd h0 (by simp)
  · intro v err h1 h2
    refine ⟨?_, containsText_append_right _ _⟩
    simp only [main, hh, if_neg hn]
    rcases hr : resolveRecordValue w f [] with ⟨res, tr1⟩
    rw [hr] at h1 h2
    simp only at h1 h2
    subst h1
    rcases hf : fetchDNSRecords w f.flagKey f.flagDomain tr1 with ⟨fres, tr2⟩
    rw [hf] at h2
    simp only at h2
    subst h2
    simp [hf]
  · intro v recs tr rid err hl hs herr
    refine ⟨?_, containsText_append_right _ _⟩
    rw [main_of_listed w f v recs tr hl, hs]
    simp only [writeRecord_true, herr]
  · intro v recs tr rid err hl hs herr
    refine ⟨"Error update DNS records: " ++ err, ?_, containsText_append_right _ _⟩
    rw [main_of_listed w f v recs tr hl, hs]
    simp only [writeRecord_false, herr]

/-- Witness of `fatal_message_by_stage`: a refused list request, and an
unreachable echo endpoint. -/
theorem fatal_message_by_stage_witness :
    (main (demoWorld "DENIED" "OK") demoFlags).outcome
        = .fatal ("Error fetching DNS records: " ++ "API response error: Invalid API key") ∧
      (main offlineWorld demoFlags).outcome = .fatal "Unable to obtain IP value" ∧
      (main (demoWorld "LIST" "DENIED") demoFlags).outcome
        = .fatal ("Error update DNS records: " ++ "API response error: Invalid API key") :=
  ⟨((fatal_message_by_stage (demoWorld "DENIED" "OK") demoFlags rfl
      ⟨by decide, by decide, by decide⟩).2.1 "203.0.113.5"
      "API response error: Invalid API key" (by decide) (by decide)).1,
    (fatal_message_by_stage offlineWorld demoFlags rfl
      ⟨by decide, by decide, by decide⟩).1 (.fatal "Unable to obtain IP value") (by decide),
    ((fatal_message_by_stage (demoWorld "LIST" "DENIED") demoFlags rfl
      ⟨by decide, by decide, by decide⟩).2.2.1 "203.0.113.5" demoRecords
      [Event.getIP false, Event.httpGet "https://4.ipw.cn",
        Event.fetchDNSRecords "K" "example.com", Event.httpGet (listURL "K" "example.com")]
      "r3" "API response error: Invalid API key" (by decide) (by decide) (by decide)).1⟩

/-- Witness of `dot_free_host_aborts`: the list holds a record whose Host is
`localhost`; the run panics with the list call as its last event. -/
theorem dot_free_host_aborts_witness :
    main (demoWorld "LOCAL" "OK") demoFlags =
      ⟨[Event.getIP false, Event.httpGet "https://4.ipw.cn",
        Event.fetchDNSRecords "K" "example.com", Event.httpGet (listURL "K" "example.com")],
        .panic⟩ :=
  ((dot_free_host_aborts.2.2.1 (demoWorld "LOCAL" "OK") demoFlags "203.0.113.5" localRecords
    [Event.getIP false, Event.httpGet "https://4.ipw.cn",
      Event.fetchDNSRecords "K" "example.com", Event.httpGet (listURL "K" "example.com")]
    (by decide)).2 ⟨⟨"r5", "A", "localhost", "127.0.0.1", "7207", 0⟩, by decide, by decide⟩).1

end NameSiloDDNS
